import Mathlib

/-!
Verification of the log-parsing and metric-derivation engine of the
`semu` statistic scripts (`draw_increase.py`, `draw_increase_merge.py`,
`draw_scaled.py`, `draw_scaled_merge.py`).

Numbers are modelled in ℚ (the scripts use Python floats only for small
decimal literals and exact-threshold comparisons; every concrete value in
the checked properties is exactly representable).  Text is modelled as
`List Char`; file contents arrive pre-split into lines, which matches the
line iteration `for line in f` of the scripts.
-/

/-- Whitespace as stripped by Python `str.strip()` and matched by `\s`,
restricted to the ASCII whitespace characters. -/
def pyIsSpace (c : Char) : Bool :=
  c = ' ' || c = '\t' || c = '\n' || c = '\r' || c = '\x0b' || c = '\x0c'

/-- Python `str.strip()`: drop whitespace from both ends. -/
def pyStrip (s : List Char) : List Char :=
  ((s.dropWhile pyIsSpace).reverse.dropWhile pyIsSpace).reverse

/-- Python `str.split(sep)` with an explicit one-character separator:
splits at every occurrence, keeping empty parts. -/
def pySplitOn (sep : Char) : List Char → List (List Char)
  | [] => [[]]
  | c :: rest =>
    match pySplitOn sep rest with
    | [] => if c = sep then [[], []] else [[c]]
    | p :: ps => if c = sep then [] :: p :: ps else (c :: p) :: ps

/-- Helper for Python `str.split()` (no argument): accumulates the current
word (reversed) while scanning. -/
def pySplitWSAux : List Char → List Char → List (List Char)
  | [], acc => if acc = [] then [] else [acc.reverse]
  | c :: rest, acc =>
    if pyIsSpace c then
      if acc = [] then pySplitWSAux rest []
      else acc.reverse :: pySplitWSAux rest []
    else pySplitWSAux rest (c :: acc)

/-- Python `str.split()` with no argument: split on whitespace runs,
discarding empty fields. -/
def pySplitWS (s : List Char) : List (List Char) := pySplitWSAux s []

/-- Value of a list of decimal digit characters. -/
def digitsToNat (ds : List Char) : ℕ :=
  ds.foldl (fun n c => 10 * n + (c.toNat - '0'.toNat)) 0

/-- Exponent-digit tail of a Python float literal: after `e`/`E` and an
optional sign, at least one digit must follow and end the string. -/
def pyFloatExpDigits (sgnm mant : ℚ) (eneg : Bool) (r : List Char) : Option ℚ :=
  let ds := r.takeWhile Char.isDigit
  let rest := r.dropWhile Char.isDigit
  if ds = [] then none
  else if rest = [] then
    some (if eneg then sgnm * mant / 10 ^ digitsToNat ds
          else sgnm * mant * 10 ^ digitsToNat ds)
  else none

/-- After the mantissa of a Python float literal: end of string, or an
exponent part. -/
def pyFloatExpTail (sgnm mant : ℚ) : List Char → Option ℚ
  | [] => some (sgnm * mant)
  | c :: r =>
    if c = 'e' || c = 'E' then
      match r with
      | '+' :: r2 => pyFloatExpDigits sgnm mant false r2
      | '-' :: r2 => pyFloatExpDigits sgnm mant true r2
      | r2 => pyFloatExpDigits sgnm mant false r2
    else none

/-- Mantissa of a Python float literal: digits, optionally a dot and more
digits, with at least one digit overall. -/
def pyFloatMant (sgnm : ℚ) (s : List Char) : Option ℚ :=
  let ip := s.takeWhile Char.isDigit
  let r1 := s.dropWhile Char.isDigit
  match r1 with
  | '.' :: r2 =>
    let fp := r2.takeWhile Char.isDigit
    let r3 := r2.dropWhile Char.isDigit
    if ip = [] && fp = [] then none
    else
      pyFloatExpTail sgnm ((digitsToNat ip : ℚ) + (digitsToNat fp : ℚ) / 10 ^ fp.length) r3
  | _ =>
    if ip = [] then none
    else pyFloatExpTail sgnm (digitsToNat ip : ℚ) r1

/-- Model of Python `float(str)` on the decimal grammar these logs use:
optional surrounding whitespace, optional sign, digits with optional
fraction, optional exponent.  (Underscore separators, `inf` and `nan` are
not modelled; no checked input uses them.)  `none` models `ValueError`. -/
def pyFloat? (s : List Char) : Option ℚ :=
  match pyStrip s with
  | '+' :: r => pyFloatMant 1 r
  | '-' :: r => pyFloatMant (-1) r
  | r => pyFloatMant 1 r

/-- Model of Python `int(str)` in base 10: optional whitespace and sign,
then at least one digit.  `none` models `ValueError`. -/
def pyInt? (s : List Char) : Option ℤ :=
  match pyStrip s with
  | '+' :: r =>
    if r.takeWhile Char.isDigit = [] then none
    else if r.dropWhile Char.isDigit = [] then some (digitsToNat (r.takeWhile Char.isDigit) : ℤ)
    else none
  | '-' :: r =>
    if r.takeWhile Char.isDigit = [] then none
    else if r.dropWhile Char.isDigit = [] then some (-(digitsToNat (r.takeWhile Char.isDigit) : ℤ))
    else none
  | r =>
    if r.takeWhile Char.isDigit = [] then none
    else if r.dropWhile Char.isDigit = [] then some (digitsToNat (r.takeWhile Char.isDigit) : ℤ)
    else none

/-- The outlier cutoff of both time-log parsers: `THRESHOLD = 1e8`. -/
def THRESHOLD : ℚ := 10 ^ 8

/-- The stripped line, when it starts with the literal `diff:` (the guard
`line.startswith("diff:")` shared by both time-log parsers). -/
def lineRaw (l : List Char) : Option (List Char) :=
  let t := pyStrip l
  if ("diff:").data.isPrefixOf t then some t else none

/-- The total field of a diff line, as read by both time-log parsers:
`parts = line.split(',')`, then `float(parts[1].split(':')[1].strip())`.
`none` models the caught `IndexError`/`ValueError`. -/
def lineTotal? (l : List Char) : Option ℚ :=
  (lineRaw l).bind fun t =>
    ((pySplitOn ',' t)[1]?).bind fun p1 =>
      ((pySplitOn ':' p1)[1]?).bind fun ts =>
        pyFloat? (pyStrip ts)

/-- The diff field of a diff line: `float(parts[0].split(':')[1].strip())`. -/
def lineDiff? (l : List Char) : Option ℚ :=
  (lineRaw l).bind fun t =>
    ((pySplitOn ':' ((pySplitOn ',' t).headD []))[1]?).bind fun ds =>
      pyFloat? (pyStrip ds)

/-- The contribution of one line to `parse_ns_per_call_time_log`
(`draw_scaled.py` and `draw_scaled_merge.py`): the total field within
threshold yields `(total / 2) / 1_000_000`; otherwise nothing. -/
def lineNs (l : List Char) : Option ℚ :=
  match lineTotal? l with
  | none => none
  | some t => if THRESHOLD < t then none else some (t / 2 / 1000000)

/-- The contribution of one line to `parse_percentage_time_log`: both
fields must parse, the total must be within threshold, and the diff must be
nonzero; the value is `total / diff`. -/
def linePerc (l : List Char) : Option ℚ :=
  match lineDiff? l, lineTotal? l with
  | some d, some t =>
    if THRESHOLD < t then none
    else if d ≠ 0 then some (t / d) else none
  | _, _ => none

/-- `parse_ns_per_call_time_log` over the lines of one time-log file. -/
def parseNsLog (lines : List (List Char)) : List ℚ := lines.filterMap lineNs

/-- `parse_percentage_time_log` over the lines of one time-log file. -/
def parsePercLog (lines : List (List Char)) : List ℚ := lines.filterMap linePerc

/-- `sum(vals) / len(vals)` guarded by emptiness, the `if vals: ... else
0.0` pattern used for every average in the scripts. -/
def avgQ (l : List ℚ) : ℚ := if l = [] then 0 else l.sum / l.length

/-- One line of `parse_results_summary` (`draw_scaled.py`): strip, skip
blank and `#` lines, skip the `SMP` header, require at least 10
whitespace-separated fields, then `int(parts[0])` and `float(parts[3])`;
a `ValueError` (modelled by `none`) skips the line. -/
def lineEntry? (l : List Char) : Option (ℤ × ℚ) :=
  let t := pyStrip l
  if t = [] then none
  else if ("#").data.isPrefixOf t then none
  else
    let parts := pySplitWS t
    if parts.headD [] = ("SMP").data then none
    else if 10 ≤ parts.length then
      match pyInt? (parts.headD []), pyFloat? (parts.getD 3 []) with
      | some k, some v => some (k, v)
      | _, _ => none
    else none

/-- One dict assignment `smp_info[smp_val] = predicted_ns` (or a no-op for
a skipped line). -/
def summaryStep (m : ℤ → Option ℚ) (l : List Char) : ℤ → Option ℚ :=
  match lineEntry? l with
  | some kv => fun k => if k = kv.1 then some kv.2 else m k
  | none => m

/-- `parse_results_summary` over the lines of one summary file, as the
final lookup map (later assignments to the same key overwrite earlier
ones, exactly as the Python dict does). -/
def parseResultsSummary (lines : List (List Char)) : ℤ → Option ℚ :=
  lines.foldl summaryStep (fun _ => none)

/-- The seven-component tuple stored per SMP by `parse_summary_file`
(`draw_scaled_merge.py`). -/
structure SummaryRow where
  rbt : ℚ
  tc : ℚ
  predNs : ℚ
  predSec : ℚ
  sf : ℚ
  totalCs : ℚ
  perc : ℚ
deriving DecidableEq

/-- One line of `parse_summary_file` (`draw_scaled_merge.py`): same
skipping rules as `lineEntry?`, but the stored value is the tuple of
columns 1..7 parsed as floats (a failure of any conversion is caught and
skips the line). -/
def mergeLineEntry? (l : List Char) : Option (ℤ × SummaryRow) :=
  let t := pyStrip l
  if t = [] then none
  else if ("#").data.isPrefixOf t then none
  else
    let parts := pySplitWS t
    if parts.headD [] = ("SMP").data then none
    else if 10 ≤ parts.length then
      match pyInt? (parts.headD []), pyFloat? (parts.getD 1 []), pyFloat? (parts.getD 2 []),
        pyFloat? (parts.getD 3 []), pyFloat? (parts.getD 4 []), pyFloat? (parts.getD 5 []),
        pyFloat? (parts.getD 6 []), pyFloat? (parts.getD 7 []) with
      | some k, some a, some b, some c, some d, some e, some f, some g =>
        some (k, ⟨a, b, c, d, e, f, g⟩)
      | _, _, _, _, _, _, _, _ => none
    else none

/-- One dict assignment of `parse_summary_file`. -/
def mergeSummaryStep (m : ℤ → Option SummaryRow) (l : List Char) : ℤ → Option SummaryRow :=
  match mergeLineEntry? l with
  | some kv => fun k => if k = kv.1 then some kv.2 else m k
  | none => m

/-- `parse_summary_file` over the lines of one summary file. -/
def parseSummaryFile (lines : List (List Char)) : ℤ → Option SummaryRow :=
  lines.foldl mergeSummaryStep (fun _ => none)

/-- The ten values appended for one (environment, SMP) cell by the data
collection loop of `draw_scaled_merge.py`. -/
structure CellOut where
  diffBt : ℚ
  predBt : ℚ
  predNs : ℚ
  rbt : ℚ
  sf : ℚ
  tc : ℚ
  totalCs : ℚ
  avgPerc : ℚ
  avgNs : ℚ
  diffNsCall : ℚ
deriving DecidableEq

/-- One (environment, SMP) cell of the `draw_scaled_merge.py` collection
loop.  A missing summary row appends `0.0` to every summary-derived list,
which coincides with taking the all-zero row; a missing time-log file
(`log = none`) yields empty value lists; `pred_val` (the element just
appended to `predict_ns_call[env]`) is this cell's predicted value. -/
def mergeCell (summary : ℤ → Option SummaryRow) (smp : ℤ)
    (log : Option (List (List Char))) : CellOut :=
  let s : SummaryRow := (summary smp).getD ⟨0, 0, 0, 0, 0, 0, 0⟩
  let percVals := match log with | none => [] | some lines => parsePercLog lines
  let nsVals := match log with | none => [] | some lines => parseNsLog lines
  let avgN := avgQ nsVals
  { diffBt := s.predSec - s.rbt
    predBt := s.predSec
    predNs := s.predNs
    rbt := s.rbt
    sf := s.sf
    tc := s.tc
    totalCs := s.totalCs
    avgPerc := avgQ percVals
    avgNs := avgN
    diffNsCall := avgN - s.predNs }

/-- `List.mapM` specialised to `Except Unit`, written out so concrete runs
reduce definitionally: the first error (leftmost, as in the Python loop)
aborts the whole batch. -/
def mapExcept {α β : Type} (f : α → Except Unit β) : List α → Except Unit (List β)
  | [] => Except.ok []
  | a :: t =>
    match f a, mapExcept f t with
    | Except.ok b, Except.ok bs => Except.ok (b :: bs)
    | Except.error e, _ => Except.error e
    | _, Except.error e => Except.error e

/-- One environment of the collection loop: `parse_summary_file` opens the
summary file with no existence check, so a missing file (`none`) is an
uncaught `FileNotFoundError`; otherwise one cell per SMP in 1..numSmp. -/
def buildEnvRow (summaryContent : Option (List (List Char)))
    (logs : ℕ → Option (List (List Char))) (numSmp : ℕ) :
    Except Unit (List CellOut) :=
  match summaryContent with
  | none => Except.error ()
  | some lines =>
    Except.ok ((List.range' 1 numSmp).map fun (smp : ℕ) =>
      mergeCell (parseSummaryFile lines) (smp : ℤ) (logs smp))

/-- The whole data-collection loop of `draw_scaled_merge.py`:
environments 1..numEnv, SMP 1..numSmp. -/
def buildMatrices (numEnv numSmp : ℕ)
    (summaries : ℕ → Option (List (List Char)))
    (logs : ℕ → ℕ → Option (List (List Char))) :
    Except Unit (List (List CellOut)) :=
  mapExcept (fun env => buildEnvRow (summaries env) (logs env) numSmp)
    (List.range' 1 numEnv)

/-- One (summary entry, SMP, time log) cell of `draw_scaled.py main()`:
when the SMP key is absent from the summary dict the loop `continue`s
after appending `(0.0, 0.0)` — the time log is never read; likewise for a
missing time-log file.  Otherwise the two averages (0.0 for an empty value
list) are appended. -/
def drawScaledCell (smpData : ℤ → Option ℚ) (smp : ℤ)
    (log : Option (List (List Char))) : ℚ × ℚ :=
  match smpData smp with
  | none => (0, 0)
  | some _ =>
    match log with
    | none => (0, 0)
    | some lines => (avgQ (parseNsLog lines), avgQ (parsePercLog lines))

/-- The character class `[0-9;]` of the ANSI pattern. -/
def ansiParam (c : Char) : Bool := c.isDigit || c = ';'

/-- After `ESC [`, the regex `[0-9;]*m` : the class is disjoint from `m`,
so the greedy match is this maximal-munch scan; returns the rest after the
closing `m`. -/
def ansiTail : List Char → Option (List Char)
  | [] => none
  | c :: rest => if c = 'm' then some rest else if ansiParam c then ansiTail rest else none

/-- One attempt of the pattern `\x1b\[[0-9;]*m` at the head of the text. -/
def ansiMatch : List Char → Option (List Char)
  | c1 :: c2 :: rest => if c1 = '\x1b' && c2 = '[' then ansiTail rest else none
  | _ => none

/-- Fuelled scan of `re.sub(pattern, '', s)`: one left-to-right pass
removing non-overlapping leftmost matches.  Every step consumes at least
one character, so `s.length` fuel always suffices. -/
def removeAnsiF : ℕ → List Char → List Char
  | 0, l => l
  | _ + 1, [] => []
  | fuel + 1, c :: rest =>
    match ansiMatch (c :: rest) with
    | some rest2 => removeAnsiF fuel rest2
    | none => c :: removeAnsiF fuel rest

/-- `remove_ansi_codes` (`draw_increase.py` / `draw_increase_merge.py`):
`re.sub(r'\x1b\[[0-9;]*m', '', s)`. -/
def removeAnsi (l : List Char) : List Char := removeAnsiF l.length l

/-- Case-insensitive literal match (the effect of `re.IGNORECASE` on the
literal parts of the patterns); returns the rest after the literal. -/
def matchCI : List Char → List Char → Option (List Char)
  | [], l => some l
  | _ :: _, [] => none
  | p :: ps, c :: cs => if p.toLower = c.toLower then matchCI ps cs else none

/-- The class `[0-9.]` of the first boot_re group. -/
def bootG1Char (c : Char) : Bool := c.isDigit || c = '.'

/-- One attempt of
`boot_re = "Boot time:\s*([0-9.]+)\s+seconds,\s+called\s+([0-9]+)\s+times"`
at the head of the text.  Every character class in the pattern is disjoint
from what follows it, so greedy matching is deterministic maximal munch;
returns the two groups. -/
def bootMatchAt (l : List Char) : Option (List Char × List Char) :=
  (matchCI ("Boot time:").data l).bind fun r1 =>
  let r2 := r1.dropWhile pyIsSpace
  let g1 := r2.takeWhile bootG1Char
  let r3 := r2.dropWhile bootG1Char
  if g1 = [] then none else
  if r3.takeWhile pyIsSpace = [] then none else
  (matchCI ("seconds,").data (r3.dropWhile pyIsSpace)).bind fun r5 =>
  if r5.takeWhile pyIsSpace = [] then none else
  (matchCI ("called").data (r5.dropWhile pyIsSpace)).bind fun r7 =>
  if r7.takeWhile pyIsSpace = [] then none else
  let r8 := r7.dropWhile pyIsSpace
  let g2 := r8.takeWhile Char.isDigit
  let r9 := r8.dropWhile Char.isDigit
  if g2 = [] then none else
  if r9.takeWhile pyIsSpace = [] then none else
  (matchCI ("times").data (r9.dropWhile pyIsSpace)).map fun _ => (g1, g2)

/-- `boot_re.search`: leftmost match, trying every start position. -/
def bootSearch : List Char → Option (List Char × List Char)
  | [] => none
  | c :: rest =>
    match bootMatchAt (c :: rest) with
    | some r => some r
    | none => bootSearch rest

/-- One attempt of `offset_re = "offset:\s*(-?[0-9]+)"` at the head. -/
def offsetMatchAt (l : List Char) : Option ℤ :=
  (matchCI ("offset:").data l).bind fun r1 =>
  match r1.dropWhile pyIsSpace with
  | '-' :: r3 =>
    if r3.takeWhile Char.isDigit = [] then none
    else some (-(digitsToNat (r3.takeWhile Char.isDigit) : ℤ))
  | r3 =>
    if r3.takeWhile Char.isDigit = [] then none
    else some (digitsToNat (r3.takeWhile Char.isDigit) : ℤ)

/-- `offset_re.search`: leftmost match. -/
def offsetSearch : List Char → Option ℤ
  | [] => none
  | c :: rest =>
    match offsetMatchAt (c :: rest) with
    | some z => some z
    | none => offsetSearch rest

/-- The boot extraction of `draw_increase.py` (and `_merge`): strip ANSI
codes, search `boot_re`, then `float(group(1))` and `int(group(2))` with
no surrounding `try` — an unparsable group-1 raises `ValueError`
(`Except.error ()`); no match degrades to the `(0.0, 0)` defaults. -/
def extractBoot (content : List Char) : Except Unit (ℚ × ℕ) :=
  match bootSearch (removeAnsi content) with
  | none => Except.ok (0, 0)
  | some (g1, g2) =>
    match pyFloat? g1 with
    | none => Except.error ()
    | some q => Except.ok (q, digitsToNat g2)

/-- The offset extraction of `draw_increase.py` (and `_merge`): the group
`-?[0-9]+` always converts, so this is total; no match degrades to 0. -/
def extractOffset (content : List Char) : ℤ :=
  match offsetSearch (removeAnsi content) with
  | none => 0
  | some z => z

/-- A text without the ESC character contains no ANSI match, so the
substitution leaves it unchanged (fuelled form). -/
lemma removeAnsiF_of_noEsc : ∀ (fuel : ℕ) (l : List Char), l.length ≤ fuel →
    '\x1b' ∉ l → removeAnsiF fuel l = l := by
  intro fuel
  induction fuel with
  | zero => intro l _ _; rfl
  | succ f ih =>
    intro l hlen hesc
    cases l with
    | nil => rfl
    | cons c rest =>
      have hc : ¬ (c = '\x1b') := fun hc => hesc (by simp [hc])
      have hrest : '\x1b' ∉ rest := fun h => hesc (List.mem_cons_of_mem _ h)
      have hm : ansiMatch (c :: rest) = none := by
        cases rest with
        | nil => rfl
        | cons c2 r => simp [ansiMatch, hc]
      simp only [removeAnsiF, hm]
      have hlen2 : rest.length ≤ f := Nat.le_of_succ_le_succ (by simpa using hlen)
      rw [ih rest hlen2 hrest]

/-- A text without the ESC character is a fixed point of `remove_ansi_codes`. -/
lemma removeAnsi_of_noEsc (l : List Char) (h : '\x1b' ∉ l) : removeAnsi l = l :=
  removeAnsiF_of_noEsc l.length l le_rfl h

/-- `find?` over an append searches the left part first. -/
lemma findAppend {α : Type} (p : α → Bool) (l1 l2 : List α) :
    (l1 ++ l2).find? p =
      match l1.find? p with | some a => some a | none => l2.find? p := by
  induction l1 with
  | nil => rfl
  | cons a t ih =>
    by_cases h : p a
    · rw [List.cons_append, List.find?_cons_of_pos _ h, List.find?_cons_of_pos _ h]
    · rw [List.cons_append, List.find?_cons_of_neg _ (by simpa using h),
        List.find?_cons_of_neg _ (by simpa using h), ih]

/-- The summary dict after folding some lines onto an arbitrary starting
map: the last parsed entry for a key wins, else the starting map answers. -/
lemma summaryFoldl_lookup (lines : List (List Char)) :
    ∀ (m : ℤ → Option ℚ) (k : ℤ),
      (lines.foldl summaryStep m) k =
        match ((lines.filterMap lineEntry?).reverse).find? (fun p => p.1 == k) with
        | some p => some p.2
        | none => m k := by
  induction lines with
  | nil => intro m k; rfl
  | cons a t ih =>
    intro m k
    rw [List.foldl_cons, ih (summaryStep m a) k]
    cases ha : lineEntry? a with
    | none => simp [List.filterMap_cons, ha, summaryStep]
    | some kv =>
      simp only [List.filterMap_cons, ha, List.reverse_cons]
      rw [findAppend]
      cases hf : ((t.filterMap lineEntry?).reverse).find? (fun p => p.1 == k) with
      | some p => rfl
      | none =>
        simp only [summaryStep, ha]
        by_cases hk : kv.1 = k
        · rw [List.find?_cons_of_pos _ (by simpa using hk)]
          simp [hk]
        · rw [List.find?_cons_of_neg _ (by simpa using hk)]
          have hk2 : ¬ (k = kv.1) := fun h => hk h.symm
          simp [hk2]

/-- If every element maps to a success satisfying `P`, the whole
`mapExcept` run succeeds with a list of equal length whose members all
satisfy `P`. -/
lemma mapExcept_ok_of_forall {α β : Type} (f : α → Except Unit β) (P : β → Prop)
    (l : List α) (h : ∀ a ∈ l, ∃ b, f a = Except.ok b ∧ P b) :
    ∃ l2, mapExcept f l = Except.ok l2 ∧ l2.length = l.length ∧ ∀ b ∈ l2, P b := by
  induction l with
  | nil => exact ⟨[], rfl, rfl, by simp⟩
  | cons a t ih =>
    obtain ⟨b, hb, hPb⟩ := h a (List.mem_cons_self a t)
    obtain ⟨l2, hl2, hlen, hP⟩ := ih fun x hx => h x (List.mem_cons_of_mem a hx)
    refine ⟨b :: l2, by simp [mapExcept, hb, hl2], by simp [hlen], ?_⟩
    intro c hc
    rcases List.mem_cons.mp hc with rfl | hc2
    · exact hPb
    · exact hP c hc2

/-- Claim C1: in both time-log parsers, a `diff:` line whose total field
parses strictly above the 1e8 threshold contributes to neither the
ns_per_call value list nor the percentage value list (wherever it sits in
the log), while a line whose total parses at or below the threshold is
retained in the ns_per_call list with its exact derived value — discarded,
never clamped. -/
theorem semu_C1 (pre post : List (List Char)) (l : List Char) (t : ℚ)
    (ht : lineTotal? l = some t) :
    (THRESHOLD < t →
      parseNsLog (pre ++ l :: post) = parseNsLog (pre ++ post) ∧
      parsePercLog (pre ++ l :: post) = parsePercLog (pre ++ post)) ∧
    (t ≤ THRESHOLD →
      parseNsLog (pre ++ l :: post) =
        parseNsLog pre ++ (t / 2 / 1000000) :: parseNsLog post) := by
  constructor
  · intro h
    have hNs : lineNs l = none := by simp [lineNs, ht, h]
    have hPerc : linePerc l = none := by
      cases hd : lineDiff? l <;> simp [linePerc, ht, hd, h]
    constructor
    · simp [parseNsLog, List.filterMap_append, List.filterMap_cons, hNs]
    · simp [parsePercLog, List.filterMap_append, List.filterMap_cons, hPerc]
  · intro h
    have hNs : lineNs l = some (t / 2 / 1000000) := by
      simp [lineNs, ht, not_lt.mpr h]
    simp [parseNsLog, List.filterMap_append, List.filterMap_cons, hNs]

/-- Witness for C1 at the concrete log `["diff: 100, total: 1e9"]`. -/
theorem semu_C1_witness :
    parseNsLog [("diff: 100, total: 1e9").data] = parseNsLog [] ∧
    parsePercLog [("diff: 100, total: 1e9").data] = parsePercLog [] :=
  (semu_C1 [] [] ("diff: 100, total: 1e9").data (10 ^ 9)
    (by with_unfolding_all rfl)).1 (by norm_num [THRESHOLD])

/-- Claim C2: every retained record contributes exactly
`total / 2 / 1e6` to the ns_per_call list and `total / diff` to the
percentage list; and on the spec's end-to-end scenario (summary row for
SMP 4 with predicted 50.0, log lines `diff: 100, total: 60` and
`diff: 100, total: 1e9`) the merge aggregator reports
avg_real_ns_per_call = 0.00003, diff_ns_per_call = 0.00003 - 50.0 and
avg_real_percentage = 0.6. -/
theorem semu_C2 :
    (∀ (l : List Char) (d t : ℚ), lineDiff? l = some d → lineTotal? l = some t →
      t ≤ THRESHOLD → d ≠ 0 →
      lineNs l = some (t / 2 / 1000000) ∧ linePerc l = some (t / d)) ∧
    ((mergeCell (parseSummaryFile [("4 0.100 1000 50.0 0.150 1.5 50000 0.2 0 0").data]) 4
        (some [("diff: 100, total: 60").data, ("diff: 100, total: 1e9").data])).avgNs
        = 3 / 100000 ∧
     (mergeCell (parseSummaryFile [("4 0.100 1000 50.0 0.150 1.5 50000 0.2 0 0").data]) 4
        (some [("diff: 100, total: 60").data, ("diff: 100, total: 1e9").data])).diffNsCall
        = 3 / 100000 - 50 ∧
     (mergeCell (parseSummaryFile [("4 0.100 1000 50.0 0.150 1.5 50000 0.2 0 0").data]) 4
        (some [("diff: 100, total: 60").data, ("diff: 100, total: 1e9").data])).avgPerc
        = 3 / 5) := by
  constructor
  · intro l d t hd ht hth hdz
    exact ⟨by simp [lineNs, ht, not_lt.mpr hth],
           by simp [linePerc, hd, ht, not_lt.mpr hth, hdz]⟩
  · refine ⟨by with_unfolding_all rfl, by with_unfolding_all rfl,
      by with_unfolding_all rfl⟩

/-- Witness for C2's per-record formulas at `diff: 100, total: 60`. -/
theorem semu_C2_witness :
    lineNs (("diff: 100, total: 60").data) = some (60 / 2 / 1000000) ∧
    linePerc (("diff: 100, total: 60").data) = some (60 / 100) :=
  semu_C2.1 ("diff: 100, total: 60").data 100 60 (by with_unfolding_all rfl)
    (by with_unfolding_all rfl) (by norm_num [THRESHOLD]) (by norm_num)

/-- Claim C4: a `diff:` line whose diff field parses to exactly zero (with
its total within threshold) contributes no percentage value at all — it is
skipped, entering neither the numerator nor the denominator of the
average, and no division is performed. -/
theorem semu_C4 (pre post : List (List Char)) (l : List Char) (t : ℚ)
    (hd : lineDiff? l = some 0) (ht : lineTotal? l = some t)
    (hth : t ≤ THRESHOLD) :
    linePerc l = none ∧
    parsePercLog (pre ++ l :: post) = parsePercLog (pre ++ post) := by
  have h1 : linePerc l = none := by
    simp [linePerc, hd, ht, not_lt.mpr hth]
  exact ⟨h1, by simp [parsePercLog, List.filterMap_append, List.filterMap_cons, h1]⟩

/-- Witness for C4 at the concrete line `diff: 0, total: 60`. -/
theorem semu_C4_witness :
    linePerc (("diff: 0, total: 60").data) = none ∧
    parsePercLog [("diff: 0, total: 60").data] = parsePercLog [] :=
  semu_C4 [] [] ("diff: 0, total: 60").data 60 (by with_unfolding_all rfl)
    (by with_unfolding_all rfl) (by norm_num [THRESHOLD])

/-- Claim C10: every line that contributes a percentage value also
contributes an ns_per_call value (the ns parser ignores the diff field),
and the inclusion can be strict: a line with an in-threshold numeric total
but a non-numeric diff feeds the ns_per_call average only. -/
theorem semu_C10 :
    (∀ (l : List Char) (v : ℚ), linePerc l = some v → ∃ w, lineNs l = some w) ∧
    lineNs (("diff: abc, total: 60").data) = some (3 / 100000) ∧
    linePerc (("diff: abc, total: 60").data) = none := by
  refine ⟨?_, by with_unfolding_all rfl, by with_unfolding_all rfl⟩
  intro l v h
  cases hd : lineDiff? l with
  | none => simp [linePerc, hd] at h
  | some d =>
    cases ht : lineTotal? l with
    | none => simp [linePerc, hd, ht] at h
    | some t =>
      simp only [linePerc, hd, ht] at h
      by_cases hth : THRESHOLD < t
      · simp [hth] at h
      · exact ⟨t / 2 / 1000000, by simp [lineNs, ht, hth]⟩

/-- Witness for C10's inclusion at the concrete line `diff: 100, total: 60`. -/
theorem semu_C10_witness :
    ∃ w, lineNs (("diff: 100, total: 60").data) = some w :=
  semu_C10.1 ("diff: 100, total: 60").data (3 / 5) (by with_unfolding_all rfl)

/-- Claim C3 (amended): provided every environment's summary table file
can be opened (its content arbitrary, including malformed), the collection
loop succeeds and produces exactly one cell record at every
(environment, SMP) position — a dense numEnv x numSmp grid of which every
named output matrix is a field projection; missing time-log files and
malformed rows only degrade individual cells to the documented defaults. -/
theorem semu_C3 (numEnv numSmp : ℕ)
    (summaries : ℕ → Option (List (List Char)))
    (logs : ℕ → ℕ → Option (List (List Char)))
    (h : ∀ env ∈ List.range' 1 numEnv, (summaries env).isSome) :
    ∃ grid, buildMatrices numEnv numSmp summaries logs = Except.ok grid ∧
      grid.length = numEnv ∧ ∀ row ∈ grid, row.length = numSmp := by
  have hrows : ∀ env ∈ List.range' 1 numEnv,
      ∃ row, buildEnvRow (summaries env) (logs env) numSmp = Except.ok row ∧
        row.length = numSmp := by
    intro env henv
    obtain ⟨c, hc⟩ := Option.isSome_iff_exists.mp (h env henv)
    refine ⟨(List.range' 1 numSmp).map fun (smp : ℕ) =>
        mergeCell (parseSummaryFile c) (smp : ℤ) (logs env smp), ?_, ?_⟩
    · rw [hc]
      rfl
    · simp [List.length_range']
  obtain ⟨grid, hg, hlen, hP⟩ := mapExcept_ok_of_forall
    (fun env => buildEnvRow (summaries env) (logs env) numSmp)
    (fun row => row.length = numSmp) (List.range' 1 numEnv) hrows
  exact ⟨grid, hg, by simpa using hlen, hP⟩

/-- Witness for C3 at one environment with a present (empty) summary file. -/
theorem semu_C3_witness :
    ∃ grid, buildMatrices 1 1 (fun _ => some []) (fun _ _ => none) = Except.ok grid ∧
      grid.length = 1 ∧ ∀ row ∈ grid, row.length = 1 :=
  semu_C3 1 1 (fun _ => some []) (fun _ _ => none) (by decide)

/-- Counterexample to C3 as stated: with one environment, one SMP, and the
summary table file missing, the collection loop raises (the uncaught
`FileNotFoundError` of `open()`) instead of substituting defaults — no
output matrices are produced at all. -/
theorem semu_C3_cex :
    buildMatrices 1 1 (fun _ => none) (fun _ _ => none) = Except.error () ∧
    ∀ grid, buildMatrices 1 1 (fun _ => none) (fun _ _ => none) ≠ Except.ok grid := by
  refine ⟨rfl, ?_⟩
  intro grid hgrid
  rw [show buildMatrices 1 1 (fun _ => none) (fun _ _ => none) = Except.error ()
    from rfl] at hgrid
  exact Except.noConfusion hgrid

/-- Claim C5 (divergence witness): on a log whose boot line's time field
matches the group `[0-9.]+` without being a valid float literal, the boot
extraction raises `ValueError` from the unguarded
`float(boot_match.group(1))` instead of degrading to the defaults; a log
with no boot line does degrade to `(0.0, 0)`. -/
theorem semu_C5 :
    extractBoot (("Boot time: 3..5 seconds, called 100 times").data) =
      Except.error () ∧
    extractBoot (("no boot line here").data) = Except.ok (0, 0) :=
  ⟨by with_unfolding_all rfl, by with_unfolding_all rfl⟩

/-- Claim C6: `parse_results_summary` includes a line iff it is non-blank
after stripping, not `#`-prefixed, its first whitespace field is not the
literal `SMP`, it has at least 10 whitespace-separated fields, and the key
field (0) and value field (3) parse numerically; and among included lines
sharing an SMP key the last one in file order wins. -/
theorem semu_C6 :
    (∀ l : List Char, (lineEntry? l).isSome ↔
      (pyStrip l ≠ [] ∧ ¬ (("#").data.isPrefixOf (pyStrip l)) ∧
       (pySplitWS (pyStrip l)).headD [] ≠ ("SMP").data ∧
       10 ≤ (pySplitWS (pyStrip l)).length ∧
       (pyInt? ((pySplitWS (pyStrip l)).headD [])).isSome ∧
       (pyFloat? ((pySplitWS (pyStrip l)).getD 3 [])).isSome)) ∧
    (∀ (lines : List (List Char)) (k : ℤ),
      parseResultsSummary lines k =
        (((lines.filterMap lineEntry?).reverse).find? (fun p => p.1 == k)).map
          Prod.snd) := by
  constructor
  · intro l
    simp only [lineEntry?]
    split_ifs with h1 h2 h3 h4
    · simp_all
    · simp_all
    · simp_all
    · cases hk : pyInt? ((pySplitWS (pyStrip l)).headD []) with
      | none => simp_all
      | some k0 =>
        cases hv : pyFloat? ((pySplitWS (pyStrip l)).getD 3 []) with
        | none => simp_all
        | some v0 => simp_all
    · simp_all
  · intro lines k
    rw [parseResultsSummary, summaryFoldl_lookup]
    cases hf : ((lines.filterMap lineEntry?).reverse).find? (fun p => p.1 == k) <;>
      simp [hf]

/-- Claim C7 (amended): in the `draw_scaled_merge.py` aggregator a cell
whose SMP is absent from the summary table records 0.0 for every
summary-derived field yet still computes the event-log averages over the
retained records; in `draw_scaled.py` such a cell is instead recorded as
(0.0, 0.0) without reading the event log (see the counterexample). -/
theorem semu_C7 (summary : ℤ → Option SummaryRow) (smp : ℤ)
    (lines : List (List Char)) (h : summary smp = none) :
    ((mergeCell summary smp (some lines)).diffBt = 0 ∧
     (mergeCell summary smp (some lines)).predBt = 0 ∧
     (mergeCell summary smp (some lines)).predNs = 0 ∧
     (mergeCell summary smp (some lines)).rbt = 0 ∧
     (mergeCell summary smp (some lines)).sf = 0 ∧
     (mergeCell summary smp (some lines)).tc = 0 ∧
     (mergeCell summary smp (some lines)).totalCs = 0) ∧
    (mergeCell summary smp (some lines)).avgNs = avgQ (parseNsLog lines) ∧
    (mergeCell summary smp (some lines)).avgPerc = avgQ (parsePercLog lines) ∧
    (parseNsLog lines ≠ [] →
      (mergeCell summary smp (some lines)).avgNs =
        (parseNsLog lines).sum / (parseNsLog lines).length) := by
  refine ⟨⟨?_, ?_, ?_, ?_, ?_, ?_, ?_⟩, ?_, ?_, ?_⟩
  · simp [mergeCell, h]
  · simp [mergeCell, h]
  · simp [mergeCell, h]
  · simp [mergeCell, h]
  · simp [mergeCell, h]
  · simp [mergeCell, h]
  · simp [mergeCell, h]
  · simp [mergeCell, h]
  · simp [mergeCell, h]
  · intro hne
    simp [mergeCell, h, avgQ, hne]

/-- Witness for C7 at a concrete summary-less cell with one retained record. -/
theorem semu_C7_witness :
    (mergeCell (fun _ => none) 4 (some [("diff: 100, total: 60").data])).avgNs =
      avgQ (parseNsLog [("diff: 100, total: 60").data]) :=
  (semu_C7 (fun _ => none) 4 [("diff: 100, total: 60").data] rfl).2.1

/-- Counterexample to C7 as stated: in `draw_scaled.py main()`, a cell
whose SMP is absent from the summary dict is recorded as (0.0, 0.0)
without reading its event log, although that log holds a retained record
with a nonzero average. -/
theorem semu_C7_cex :
    drawScaledCell (fun _ => none) 4 (some [("diff: 100, total: 60").data]) = (0, 0) ∧
    parseNsLog [("diff: 100, total: 60").data] = [3 / 100000] ∧
    avgQ (parseNsLog [("diff: 100, total: 60").data]) ≠ 0 := by
  refine ⟨rfl, by with_unfolding_all rfl, ?_⟩
  rw [show parseNsLog [("diff: 100, total: 60").data] = [3 / 100000] from
    by with_unfolding_all rfl]
  simp [avgQ]

/-- Claim C8 (amended): boot and offset extraction strip terminal escape
sequences before matching, and return the same result on a raw text as on
the stripped text whenever the stripped text retains no ESC byte; the
event-log parsers perform no stripping, so an escape sequence inside a
`diff:` line changes their result (see the counterexample). -/
theorem semu_C8 (s : List Char) (h : '\x1b' ∉ removeAnsi s) :
    extractBoot (removeAnsi s) = extractBoot s ∧
    extractOffset (removeAnsi s) = extractOffset s := by
  have h2 : removeAnsi (removeAnsi s) = removeAnsi s := removeAnsi_of_noEsc _ h
  exact ⟨by simp only [extractBoot, h2], by simp only [extractOffset, h2]⟩

/-- Witness for C8 at a concrete colorized boot log. -/
theorem semu_C8_witness :
    extractBoot (removeAnsi (("\x1b[31mBoot time: 3.5 seconds, called 100 times\x1b[0m").data)) =
      extractBoot (("\x1b[31mBoot time: 3.5 seconds, called 100 times\x1b[0m").data) ∧
    extractOffset (removeAnsi (("\x1b[31mBoot time: 3.5 seconds, called 100 times\x1b[0m").data)) =
      extractOffset (("\x1b[31mBoot time: 3.5 seconds, called 100 times\x1b[0m").data) :=
  semu_C8 _ (by decide)

/-- Counterexample to C8 as stated: the event extraction is not invariant
under stripping — a trailing color-reset sequence makes the total field
unparsable, so the raw line is dropped while the stripped line is kept. -/
theorem semu_C8_cex :
    parseNsLog [removeAnsi (("diff: 100, total: 60\x1b[0m").data)] = [3 / 100000] ∧
    parseNsLog [("diff: 100, total: 60\x1b[0m").data] = [] ∧
    ([3 / 100000] : List ℚ) ≠ [] :=
  ⟨by with_unfolding_all rfl, by with_unfolding_all rfl, by simp⟩

/-- Claim C9 (amended): `remove_ansi_codes` is idempotent on every input
whose first application leaves no ESC byte in its output; in general one
removal can splice a new escape sequence out of the surrounding text,
which only a second application removes (see the counterexample). -/
theorem semu_C9 (s : List Char) (h : '\x1b' ∉ removeAnsi s) :
    removeAnsi (removeAnsi s) = removeAnsi s :=
  removeAnsi_of_noEsc _ h

/-- Witness for C9 at a concrete colorized string. -/
theorem semu_C9_witness :
    removeAnsi (removeAnsi (("\x1b[0mabc").data)) = removeAnsi (("\x1b[0mabc").data) :=
  semu_C9 _ (by decide)

/-- Counterexample to C9 as stated: one substitution pass over
`ESC [ ESC [ 1 m 2 m` removes the inner escape sequence and thereby
splices together a new one, which only a second pass removes. -/
theorem semu_C9_cex :
    removeAnsi (removeAnsi (("\x1b[\x1b[1m2m").data)) ≠
      removeAnsi (("\x1b[\x1b[1m2m").data) := by decide
